import Mathlib

/-
  Verification of the rs_service_client repository.

  Shallow embedding of the Sparkplug address/topic grammar
  (src/sparkplug/util.rs), the fetch pipeline and token cache
  (src/service/service_trait.rs), the service-client token lookup and
  header normalization (src/service.rs), and the discovery layer
  (src/service/discovery.rs).

  Rust `String` values are embedded as `List Char`; `HashMap` values as
  association lists; the network is an oracle (indexed by call count) so
  that the number of upstream calls is observable.
-/

namespace RsClient

/-- The embedding of Rust strings: a string is its list of characters. -/
abbrev Str := List Char

/-- Embedding of Rust `s.split('/')`: split a string at every `'/'`.
Always returns at least one (possibly empty) segment, exactly as
`str::split`, whose iterator always yields at least one item. -/
def splitSlash : Str → List Str
  | [] => [[]]
  | c :: cs =>
    match splitSlash cs with
    | [] => [[]]
    | seg :: segs => if c = '/' then [] :: seg :: segs else (c :: seg) :: segs

/-- Join segments with `'/'` separators; inverse of `splitSlash`. -/
def joinSlash : List Str → Str
  | [] => []
  | [seg] => seg
  | seg :: seg2 :: segs => seg ++ '/' :: joinSlash (seg2 :: segs)

/- ===== Sparkplug model (src/sparkplug/util.rs) ===== -/

/-- Embeds `SparkplugError` from src/error.rs. -/
structure SparkplugError where
  message : Str
deriving DecidableEq

/-- Embeds `AddressType` from src/sparkplug/util.rs: a device address
wraps the device name. -/
inductive AddressType where
  | device (name : Str)
  | node
deriving DecidableEq

/-- Embeds `Address` from src/sparkplug/util.rs. -/
structure Address where
  group : Str
  node : Str
  address_type : AddressType
deriving DecidableEq

/-- The `"+"` wildcard string. -/
def plusStr : Str := "+".toList

/-- Embeds the local function `wild` inside `Address::matches`:
`p == a || p == "+"`. -/
def wild (p a : Str) : Bool :=
  decide (p = a) || decide (p = plusStr)

/-- Embeds the local function `wild_address_type` inside `Address::matches`:
`p == a || (*p == AddressType::Device("+") && *a != AddressType::Node)`. -/
def wildAddressType (p a : AddressType) : Bool :=
  decide (p = a) || (decide (p = AddressType.device plusStr) && decide (a ≠ AddressType.node))

/-- Embeds `Address::matches`: the receiver is the pattern, the argument
the candidate. -/
def Address.matches (p other : Address) : Bool :=
  wild p.group other.group && wild p.node other.node
    && wildAddressType p.address_type other.address_type

/-- Embeds `<Address as FromStr>::from_str`: split on `'/'` and match on
`(get(0), get(1), get(2))`.  Three or more segments produce a device
address from the third segment (later segments are not inspected); two
segments produce a node address; anything else is an error. -/
def addressFromStr (s : Str) : Except SparkplugError Address :=
  match splitSlash s with
  | g :: n :: d :: _ => .ok ⟨g, n, AddressType.device d⟩
  | [g, n] => .ok ⟨g, n, AddressType.node⟩
  | _ => .error ⟨"Couldn't parse address.".toList⟩

/-- Embeds `<Address as Display>::fmt`: `"{group}/{node}"` with
`"/{device}"` appended for a device address. -/
def addressToStr (a : Address) : Str :=
  a.group ++ '/' :: a.node ++
    (match a.address_type with
     | AddressType.device d => '/' :: d
     | AddressType.node => [])

/-- Embeds the constant `SP_PREFIX = "spBv1.0"`. -/
def SP_NAMESPACE : Str := "spBv1.0".toList

/-- Embeds `TopicType` from src/sparkplug/util.rs. -/
inductive TopicType where
  | Any
  | NBIRTH
  | NCMD
  | NDATA
  | NDEATH
  | DBIRTH
  | DCMD
  | DDATA
  | DDEATH
deriving DecidableEq

/-- Embeds `<TopicType as FromStr>::from_str`. -/
def topicTypeFromStr (s : Str) : Except SparkplugError TopicType :=
  if s = "+".toList then .ok TopicType.Any
  else if s = "NBIRTH".toList then .ok TopicType.NBIRTH
  else if s = "NCMD".toList then .ok TopicType.NCMD
  else if s = "NDATA".toList then .ok TopicType.NDATA
  else if s = "NDEATH".toList then .ok TopicType.NDEATH
  else if s = "DBIRTH".toList then .ok TopicType.DBIRTH
  else if s = "DCMD".toList then .ok TopicType.DCMD
  else if s = "DDATA".toList then .ok TopicType.DDATA
  else if s = "DDEATH".toList then .ok TopicType.DDEATH
  else .error ⟨"Couldn't determine topic type".toList⟩

/-- Embeds `<TopicType as Display>::fmt`. -/
def topicTypeToStr : TopicType → Str
  | TopicType.Any => "+".toList
  | TopicType.NBIRTH => "NBIRTH".toList
  | TopicType.NCMD => "NCMD".toList
  | TopicType.NDATA => "NDATA".toList
  | TopicType.NDEATH => "NDEATH".toList
  | TopicType.DBIRTH => "DBIRTH".toList
  | TopicType.DCMD => "DCMD".toList
  | TopicType.DDATA => "DDATA".toList
  | TopicType.DDEATH => "DDEATH".toList

/-- Embeds `Topic` from src/sparkplug/util.rs; `ns` embeds the source
field holding the namespace constant (called `prefix` in the source). -/
structure Topic where
  ns : Str
  address : Address
  topic_type : TopicType
deriving DecidableEq

/-- Embeds `<Topic as FromStr>::from_str`: length must be 4 or 5, segment
0 must equal `SP_PREFIX`, the address is built from segments 1, 3 and
(optionally) 4, and segment 2 decodes the topic type (errors from it
propagate, via `?`). -/
def topicFromStr (s : Str) : Except SparkplugError Topic :=
  match splitSlash s with
  | [p, g, k, n] =>
    if p ≠ SP_NAMESPACE then .error ⟨"Incorrect Sparkplug prefix".toList⟩
    else
      match topicTypeFromStr k with
      | .ok tt => .ok ⟨SP_NAMESPACE, ⟨g, n, AddressType.node⟩, tt⟩
      | .error e => .error e
  | [p, g, k, n, d] =>
    if p ≠ SP_NAMESPACE then .error ⟨"Incorrect Sparkplug prefix".toList⟩
    else
      match topicTypeFromStr k with
      | .ok tt => .ok ⟨SP_NAMESPACE, ⟨g, n, AddressType.device d⟩, tt⟩
      | .error e => .error e
  | _ => .error ⟨"Incorrect topic length".toList⟩

/-- Embeds `<Topic as Display>::fmt`:
`"{prefix}/{group}/{topic_type}/{node}{device_path}"`. -/
def topicToStr (t : Topic) : Str :=
  t.ns ++ '/' :: t.address.group ++ '/' :: topicTypeToStr t.topic_type
    ++ '/' :: t.address.node ++
    (match t.address.address_type with
     | AddressType.device d => '/' :: d
     | AddressType.node => [])

/-- The validity condition of claim C7 on a topic string: 4 or 5
segments, segment 0 is the namespace constant, segment 2 is a recognized
message-kind token. -/
def validTopicStr (s : Str) : Bool :=
  match splitSlash s with
  | [p, _, k, _] =>
    decide (p = SP_NAMESPACE) &&
      (match topicTypeFromStr k with
       | .ok _ => true
       | .error _ => false)
  | [p, _, k, _, _] =>
    decide (p = SP_NAMESPACE) &&
      (match topicTypeFromStr k with
       | .ok _ => true
       | .error _ => false)
  | _ => false

/- ===== Shared map / error embeddings ===== -/

/-- Embeds `FetchError` from src/error.rs. -/
structure FetchError where
  message : Str
  url : Str
deriving DecidableEq

/-- Embeds `HashMap::get` on an association list. -/
def lookupBy {κ β : Type} [DecidableEq κ] : List (κ × β) → κ → Option β
  | [], _ => none
  | (k, v) :: rest, key => if k = key then some v else lookupBy rest key

/-- Embeds `HashMap::insert` on an association list: replace the entry if
the key is present, append it otherwise. -/
def insertBy {κ β : Type} [DecidableEq κ] : List (κ × β) → κ → β → List (κ × β)
  | [], key, val => [(key, val)]
  | (k, v) :: rest, key, val =>
    if k = key then (key, val) :: rest else (k, v) :: insertBy rest key val

/- ===== Fetch pipeline model (src/service/service_trait.rs, fetch_util) ===== -/

/-- Embeds `TokenStruct` from src/service/service_trait.rs (`expiry` is a
string there). -/
structure TokenStruct where
  token : Str
  expiry : Str
deriving DecidableEq

/-- Embeds `FetchResponse` from src/service/service_trait.rs (`status` is
an `i32`). -/
structure FetchResponse where
  status : Int
  content : Str
deriving DecidableEq

/-- Outcome of running a piece of the pipeline.  `panicked` marks the one
control path where the source polls an `async fn` future that has already
been driven to completion (which panics at runtime in Rust). -/
inductive Outcome (α : Type) where
  | ok (a : α)
  | err (e : FetchError)
  | panicked
deriving DecidableEq

/-- Embeds `HttpRequestMethod` from src/service/service_trait.rs. -/
inductive HttpRequestMethod where
  | GET
  | POST
  | PUT
  | PATCH
  | DELETE
  | HEAD
deriving DecidableEq

/-- Embeds `ServiceOpts` from src/service/service_trait.rs. -/
structure ServiceOpts where
  url : Str
  method : HttpRequestMethod
  headers : List (Str × Str)
  query : List (Str × Str)
  body : Option Str

/-- The network, as oracles indexed by call count:
`acquireOracle n` is the result of the n-th `fetch_token` call (the POST
to `{url}/token` followed by status checking and JSON decoding);
`httpOracle n` is the status and body of the n-th main-request execution
(`none` is a transport failure); `urlParseable` tells whether
`reqwest::Url::from_str(opts.url)` succeeds. -/
structure Env where
  acquireOracle : Nat → Except FetchError TokenStruct
  httpOracle : Nat → Option (Int × Str)
  urlParseable : Bool

/-- The mutable state threaded through the pipeline: the `tokens` map,
the set of keys in `in_flight_tokens` (in this sequential model every
stored future has already been driven to completion by the caller that
inserted it, because the source awaits it immediately after inserting),
and the two call counters that make oracle consumption observable. -/
structure PState where
  tokens : List (Str × TokenStruct)
  inFlight : List Str
  acquireCount : Nat
  httpCount : Nat
deriving DecidableEq

/-- Embeds `service_token` from src/service/service_trait.rs.
If the key is absent from `tokens` and present in `in_flight_tokens`, the
source awaits the stored future again; that future was already driven to
completion by the caller that inserted it (completed futures are never
removed from the map), and polling a completed `async fn` future panics,
hence `panicked`.  Otherwise: on a miss, the source inserts a fresh
`fetch_token` future into `in_flight_tokens` and immediately awaits it
(one upstream token-acquisition attempt, hence the counter bump), records
the token on success, and maps a failure to the fixed error message; on a
hit, it returns the cached token when it is non-empty and differs from
`bad_token`, else it requests a fresh one through the same
insert-and-await sequence (the source duplicates that block verbatim in
both branches, as does this embedding). -/
def service_token (env : Env) (badToken : Option TokenStruct) (serviceUrl : Str)
    (st : PState) : Outcome TokenStruct × PState :=
  match lookupBy st.tokens serviceUrl with
  | none =>
    if serviceUrl ∈ st.inFlight then
      (Outcome.panicked, st)
    else
      match env.acquireOracle st.acquireCount with
      | .ok tok =>
        (Outcome.ok tok,
         { st with
            tokens := insertBy st.tokens serviceUrl tok,
            inFlight := serviceUrl :: st.inFlight,
            acquireCount := st.acquireCount + 1 })
      | .error _ =>
        (Outcome.err ⟨"Error fetching new token.".toList, serviceUrl⟩,
         { st with
            inFlight := serviceUrl :: st.inFlight,
            acquireCount := st.acquireCount + 1 })
  | some tok =>
    if decide (¬ tok.token = []) &&
        !(match badToken with
          | some bad => decide (bad.token = tok.token)
          | none => false) then
      (Outcome.ok tok, st)
    else
      match env.acquireOracle st.acquireCount with
      | .ok tok2 =>
        (Outcome.ok tok2,
         { st with
            tokens := insertBy st.tokens serviceUrl tok2,
            inFlight := serviceUrl :: st.inFlight,
            acquireCount := st.acquireCount + 1 })
      | .error _ =>
        (Outcome.err ⟨"Error fetching new token.".toList, serviceUrl⟩,
         { st with
            inFlight := serviceUrl :: st.inFlight,
            acquireCount := st.acquireCount + 1 })

/-- Embeds the byte validity check of `http::HeaderValue::from_str`: a
visible byte (32..=255 except DEL) or horizontal tab. -/
def isValidHeaderChar (c : Char) : Bool :=
  (decide (32 ≤ c.toNat) && decide (c.toNat ≠ 127)) || decide (c.toNat = 9)

/-- Embeds `header::HeaderValue::from_str`. -/
def headerValueFromStr (s : Str) : Option Str :=
  if s.all isValidHeaderChar then some s else none

/-- The literal `"application/json"`. -/
def jsonStr : Str := "application/json".toList

/-- Embeds `try_fetch` from src/service/service_trait.rs: ask
`service_token` for a token with `bad_token` set to the empty token; a
token error becomes `FetchError{message:"", url:""}`; an empty token is
answered with a locally synthesized `FetchResponse{status:401,
content:""}` and no request execution; otherwise normalize headers,
parse the URL and execute the request once. -/
def try_fetch (env : Env) (opts : ServiceOpts) (st : PState) :
    Outcome FetchResponse × PState :=
  match service_token env (some ⟨[], []⟩) opts.url st with
  | (Outcome.panicked, st1) => (Outcome.panicked, st1)
  | (Outcome.err _, st1) => (Outcome.err ⟨[], []⟩, st1)
  | (Outcome.ok t, st1) =>
    if t.token = [] then
      (Outcome.ok ⟨401, []⟩, st1)
    else
      match headerValueFromStr jsonStr with
      | none => (Outcome.err ⟨"Couldn't create correct header value.".toList, opts.url⟩, st1)
      | some _ =>
        if env.urlParseable then
          match env.httpOracle st1.httpCount with
          | some r =>
            (Outcome.ok ⟨r.1, r.2⟩, { st1 with httpCount := st1.httpCount + 1 })
          | none =>
            (Outcome.err ⟨"Couldn't make request".toList, opts.url⟩,
             { st1 with httpCount := st1.httpCount + 1 })
        else (Outcome.err ⟨"Couldn't make request.".toList, opts.url⟩, st1)

/-- Embeds `do_fetch` from src/service/service_trait.rs: run `try_fetch`;
when it returns an `Ok` response with status 401, run `try_fetch` once
more and return that second result; every other first result is returned
unchanged. -/
def do_fetch (env : Env) (opts : ServiceOpts) (st : PState) :
    Outcome FetchResponse × PState :=
  match try_fetch env opts st with
  | (Outcome.ok resp, st1) =>
    if resp.status = 401 then try_fetch env opts st1 else (Outcome.ok resp, st1)
  | other => other

/- ===== Service client model (src/service.rs) ===== -/

/-- Embeds `ServiceType` from src/service.rs. -/
inductive ClientServiceType where
  | Directory
  | ConfigDb
  | Authentication
  | MQTT
  | CommandEscalation
deriving DecidableEq

/-- Embeds `TokenStruct` from src/service.rs (`expiry` is a `u64` there). -/
structure ClientToken where
  token : Str
  expiry : Nat
deriving DecidableEq

/-- Embeds `ServiceClient::get_service_token` from src/service.rs, with
`get_new_token` abstracted into the `acquire` argument (its result is the
outcome of the single POST to `{service_url}/token`).  The returned `Nat`
counts how many times `get_new_token` was invoked during the call.
Source behaviour: a cached token is cloned and returned; otherwise
`get_new_token` is awaited, errors propagate via `?` with the map
untouched, and a fresh token is inserted and returned. -/
def get_service_token (tokens : List (ClientServiceType × ClientToken))
    (acquire : Except FetchError ClientToken) (service : ClientServiceType) :
    Except FetchError ClientToken × List (ClientServiceType × ClientToken) × Nat :=
  match lookupBy tokens service with
  | some tok => (.ok tok, tokens, 0)
  | none =>
    match acquire with
    | .ok newTok => (.ok newTok, insertBy tokens service newTok, 1)
    | .error e => (.error e, tokens, 1)

/-- Embeds `utils::check_correct_headers`'s `entry(name).or_insert(val)`
on the header map: keep the map unchanged when an entry with that name
exists, append the pair otherwise. -/
def entryOrInsert (m : List (Str × Str)) (name val : Str) : List (Str × Str) :=
  if m.any (fun p => decide (p.1 = name)) then m else m ++ [(name, val)]

/-- The `ACCEPT` header name. -/
def acceptName : Str := "accept".toList

/-- The `CONTENT_TYPE` header name. -/
def contentTypeName : Str := "content-type".toList

/-- Embeds `utils::check_correct_headers` from src/service.rs: clone the
caller's headers, ensure an Accept entry, and, when a body is present,
ensure a Content-Type entry; the error branches fire only when
`HeaderValue::from_str("application/json")` fails (the `or_insert`
argument blocks are evaluated unconditionally in the source, before the
entry check). -/
def check_correct_headers (headers : List (Str × Str)) (body : Option Str)
    (url : Str) : Except FetchError (List (Str × Str)) :=
  match headerValueFromStr jsonStr with
  | none => .error ⟨"Couldn't create correct header values.".toList, url⟩
  | some v =>
    let m1 := entryOrInsert headers acceptName v
    if body.isSome then
      match headerValueFromStr jsonStr with
      | none => .error ⟨"Couldn't create correct header values.".toList, url⟩
      | some v2 => .ok (entryOrInsert m1 contentTypeName v2)
    else .ok m1

/- ===== Discovery model (src/service/discovery.rs) ===== -/

/-- Embeds `DiscoveryInterface::find_service_urls`: delegate to the
Directory collaborator (`DirectoryInterface::service_urls`), modelled as
an oracle indexed by a query counter so Directory queries are
observable. -/
def find_service_urls (dirOracle : Nat → Except FetchError (Option (List Str)))
    (dirCount : Nat) : Except FetchError (Option (List Str)) × Nat :=
  (dirOracle dirCount, dirCount + 1)

/-- Embeds `DiscoveryInterface::get_service_urls`: return the
preconfigured list for the service when one exists in `urls`, otherwise
query the Directory collaborator.  The method takes `&self`: the `urls`
map is never modified, so nothing fetched from Directory is stored. -/
def get_service_urls (urls : List (ClientServiceType × List Str))
    (dirOracle : Nat → Except FetchError (Option (List Str)))
    (dirCount : Nat) (service : ClientServiceType) :
    Except FetchError (Option (List Str)) × Nat :=
  match lookupBy urls service with
  | some u => (.ok (some u), dirCount)
  | none => find_service_urls dirOracle dirCount

/- ===== Concrete inputs used by counterexamples and witnesses ===== -/

/-- Environment for the 401-retry scenario: every token acquisition
returns the token `"T"` and every request execution returns status 401. -/
def envC1 : Env :=
  ⟨fun _ => .ok ⟨"T".toList, "E".toList⟩, fun _ => some (401, []), true⟩

/-- A plain GET request aimed at service url `"u"`. -/
def optsU : ServiceOpts := ⟨"u".toList, HttpRequestMethod.GET, [], [], none⟩

/-- The initial pipeline state: empty token cache, nothing in flight. -/
def st0 : PState := ⟨[], [], 0, 0⟩

/-- Environment in which every token acquisition fails. -/
def envC2 : Env :=
  ⟨fun _ => .error ⟨"boom".toList, "u".toList⟩, fun _ => none, true⟩

/-- Environment in which token acquisition succeeds with an empty
credential string. -/
def envC10 : Env :=
  ⟨fun _ => .ok ⟨[], "E".toList⟩, fun _ => some (200, []), true⟩

/-- The pipeline state after acquiring the empty token for key `"u"`
from `st0`. -/
def stC10 : PState := ⟨[("u".toList, ⟨[], "E".toList⟩)], ["u".toList], 1, 0⟩

/-- A Directory oracle that always advertises the single url `"u"`. -/
def dirOracleC3 : Nat → Except FetchError (Option (List Str)) :=
  fun _ => .ok (some ["u".toList])

/- ===================================================================
   Theorems
   =================================================================== -/

/- ===== splitSlash / joinSlash infrastructure ===== -/

theorem splitSlash_ne_nil (s : Str) : splitSlash s ≠ [] := by
  cases s with
  | nil => simp [splitSlash]
  | cons c cs =>
    simp only [splitSlash]
    split
    · simp
    · split <;> simp

theorem joinSlash_cons (c : Char) (seg : Str) (segs : List Str) :
    joinSlash ((c :: seg) :: segs) = c :: joinSlash (seg :: segs) := by
  cases segs <;> simp [joinSlash]

theorem joinSlash_splitSlash (s : Str) : joinSlash (splitSlash s) = s := by
  induction s with
  | nil => simp [splitSlash, joinSlash]
  | cons c cs ih =>
    simp only [splitSlash]
    cases h : splitSlash cs with
    | nil => exact absurd h (splitSlash_ne_nil cs)
    | cons seg segs =>
      rw [h] at ih
      by_cases hc : c = '/'
      · subst hc
        simp [joinSlash, ih]
      · simp only [if_neg hc]
        rw [joinSlash_cons, ih]

theorem splitSlash_no_slash (g : Str) (hg : '/' ∉ g) : splitSlash g = [g] := by
  induction g with
  | nil => rfl
  | cons c cs ih =>
    have hc : c ≠ '/' := fun h => hg (h ▸ List.mem_cons_self c cs)
    have hcs : '/' ∉ cs := fun h => hg (List.mem_cons_of_mem c h)
    simp [splitSlash, ih hcs, hc]

theorem splitSlash_append (g t : Str) (hg : '/' ∉ g) :
    splitSlash (g ++ '/' :: t) = g :: splitSlash t := by
  induction g with
  | nil =>
    cases h : splitSlash t with
    | nil => exact absurd h (splitSlash_ne_nil t)
    | cons seg segs => simp [splitSlash, h]
  | cons c cs ih =>
    have hc : c ≠ '/' := fun h => hg (h ▸ List.mem_cons_self c cs)
    have hcs : '/' ∉ cs := fun h => hg (List.mem_cons_of_mem c h)
    cases h : splitSlash (cs ++ '/' :: t) with
    | nil => exact absurd h (splitSlash_ne_nil _)
    | cons seg segs =>
      have := ih hcs
      rw [h] at this
      cases this
      simp [splitSlash, h, hc]

/- ===== C4: address parsing by segment count ===== -/

/-- Claim C4 counterexample: the claim states that a 4-segment string is
a parse error, but `Address::from_str` only inspects the first three
segments: `"a/b/c/d"` parses successfully to the device address
`a/b` with device `c` (the fourth segment is silently dropped). -/
theorem c4_counterexample :
    addressFromStr ("a/b/c/d".toList)
      = .ok ⟨"a".toList, "b".toList, AddressType.device ("c".toList)⟩ := by
  rfl

/-- Claim C4 (amended): `parseAddress` splits on `'/'` and returns a
parse error exactly for 1-segment strings (no `'/'` at all), a Node
address for 2 segments, and a Device address whose name is the third
segment for 3 or more segments — segments beyond the third are ignored,
not rejected.  It never returns a partial value. -/
theorem c4_amended :
    (∀ g : Str, '/' ∉ g →
      addressFromStr g = .error ⟨"Couldn't parse address.".toList⟩)
    ∧ (∀ g n : Str, '/' ∉ g → '/' ∉ n →
        addressFromStr (g ++ '/' :: n) = .ok ⟨g, n, AddressType.node⟩)
    ∧ (∀ g n d : Str, '/' ∉ g → '/' ∉ n → '/' ∉ d →
        addressFromStr (g ++ '/' :: (n ++ '/' :: d))
          = .ok ⟨g, n, AddressType.device d⟩)
    ∧ (∀ g n d rest : Str, '/' ∉ g → '/' ∉ n → '/' ∉ d →
        addressFromStr (g ++ '/' :: (n ++ '/' :: (d ++ '/' :: rest)))
          = .ok ⟨g, n, AddressType.device d⟩) := by
  refine ⟨?_, ?_, ?_, ?_⟩
  · intro g hg
    simp [addressFromStr, splitSlash_no_slash g hg]
  · intro g n hg hn
    simp [addressFromStr, splitSlash_append g _ hg, splitSlash_no_slash n hn]
  · intro g n d hg hn hd
    simp [addressFromStr, splitSlash_append g _ hg, splitSlash_append n _ hn,
      splitSlash_no_slash d hd]
  · intro g n d rest hg hn hd
    simp [addressFromStr, splitSlash_append g _ hg, splitSlash_append n _ hn,
      splitSlash_append d _ hd]

/-- Witness for `c4_amended` at the concrete strings `"a"`, `"a/b"`,
`"a/b/c"` and `"a/b/c/d"`. -/
theorem c4_witness :
    addressFromStr ("a".toList) = .error ⟨"Couldn't parse address.".toList⟩
    ∧ addressFromStr ("a".toList ++ '/' :: "b".toList)
        = .ok ⟨"a".toList, "b".toList, AddressType.node⟩
    ∧ addressFromStr ("a".toList ++ '/' :: ("b".toList ++ '/' :: "c".toList))
        = .ok ⟨"a".toList, "b".toList, AddressType.device ("c".toList)⟩
    ∧ addressFromStr ("a".toList ++ '/' :: ("b".toList ++ '/' :: ("c".toList ++ '/' :: "d".toList)))
        = .ok ⟨"a".toList, "b".toList, AddressType.device ("c".toList)⟩ :=
  ⟨c4_amended.1 "a".toList (by decide),
   c4_amended.2.1 "a".toList "b".toList (by decide) (by decide),
   c4_amended.2.2.1 "a".toList "b".toList "c".toList (by decide) (by decide) (by decide),
   c4_amended.2.2.2 "a".toList "b".toList "c".toList "d".toList (by decide) (by decide) (by decide)⟩

/- ===== C6: wildcard matching ===== -/

/-- Claim C6: `p.matches(a)` holds iff each of group and node is equal or
wildcarded on the pattern side, and the targets are equal or the pattern
target is `Device("+")` and the candidate target is some device; in
particular the full wildcard pattern matches every device address and no
node address. -/
theorem c6_matches :
    (∀ p a : Address, p.matches a = true ↔
        (p.group = a.group ∨ p.group = plusStr)
        ∧ (p.node = a.node ∨ p.node = plusStr)
        ∧ (p.address_type = a.address_type
            ∨ (p.address_type = AddressType.device plusStr
                ∧ ∃ d, a.address_type = AddressType.device d)))
    ∧ (∀ g n d : Str,
        (Address.mk plusStr plusStr (AddressType.device plusStr)).matches
          ⟨g, n, AddressType.device d⟩ = true)
    ∧ (∀ g n : Str,
        (Address.mk plusStr plusStr (AddressType.device plusStr)).matches
          ⟨g, n, AddressType.node⟩ = false) := by
  refine ⟨?_, ?_, ?_⟩
  · intro p a
    have hext : (a.address_type ≠ AddressType.node)
        ↔ (∃ d, a.address_type = AddressType.device d) := by
      cases a.address_type <;> simp
    simp [Address.matches, wild, wildAddressType, hext, and_assoc]
  · intro g n d
    by_cases h : d = plusStr <;>
      simp [Address.matches, wild, wildAddressType, h]
  · intro g n
    simp [Address.matches, wild, wildAddressType]

/- ===== C8: address parse/format round trip ===== -/

/-- Claim C8: for every 2- or 3-segment string, parsing succeeds and
parsing the formatted result gives the same address back:
`parseAddress(format(parseAddress(s))) = parseAddress(s)`. -/
theorem c8_address_roundtrip : ∀ s : Str,
    (splitSlash s).length = 2 ∨ (splitSlash s).length = 3 →
    ∃ a : Address, addressFromStr s = .ok a
      ∧ addressToStr a = s
      ∧ addressFromStr (addressToStr a) = .ok a := by
  intro s hlen
  have hjoin := joinSlash_splitSlash s
  rcases hs : splitSlash s with _ | ⟨g, _ | ⟨n, _ | ⟨d, _ | ⟨x, rest⟩⟩⟩⟩ <;>
    rw [hs] at hlen <;> simp at hlen
  · -- two segments
    rw [hs] at hjoin
    refine ⟨⟨g, n, AddressType.node⟩, ?_, ?_, ?_⟩
    · simp [addressFromStr, hs]
    · simp [addressToStr, joinSlash] at hjoin ⊢
      exact hjoin
    · have hfmt : addressToStr ⟨g, n, AddressType.node⟩ = s := by
        simp [addressToStr, joinSlash] at hjoin ⊢
        exact hjoin
      rw [hfmt]
      simp [addressFromStr, hs]
  · -- three segments
    rw [hs] at hjoin
    refine ⟨⟨g, n, AddressType.device d⟩, ?_, ?_, ?_⟩
    · simp [addressFromStr, hs]
    · simp [addressToStr, joinSlash] at hjoin ⊢
      exact hjoin
    · have hfmt : addressToStr ⟨g, n, AddressType.device d⟩ = s := by
        simp [addressToStr, joinSlash] at hjoin ⊢
        exact hjoin
      rw [hfmt]
      simp [addressFromStr, hs]

/-- Witness for `c8_address_roundtrip` at the spec's example string
`"FactoryPlus/Line1/Press1"`. -/
theorem c8_witness :
    ∃ a : Address, addressFromStr ("FactoryPlus/Line1/Press1".toList) = .ok a
      ∧ addressToStr a = "FactoryPlus/Line1/Press1".toList
      ∧ addressFromStr (addressToStr a) = .ok a :=
  c8_address_roundtrip ("FactoryPlus/Line1/Press1".toList) (Or.inr (by decide))

/- ===== C7: topic parse/format round trip ===== -/

theorem topicTypeToStr_fromStr (k : Str) (t : TopicType)
    (h : topicTypeFromStr k = .ok t) : topicTypeToStr t = k := by
  unfold topicTypeFromStr at h
  split_ifs at h
  all_goals
    first
      | exact Except.noConfusion h
      | (injection h with h2; subst h2; simp_all [topicTypeToStr])

/-- Claim C7: a topic string with 4 or 5 segments whose segment 0 is the
namespace constant and whose segment 2 is a recognized message-kind token
parses successfully and formatting the parse result reproduces the
string; every other string is a parse error. -/
theorem c7_topic_roundtrip : ∀ s : Str,
    (validTopicStr s = true → ∃ t, topicFromStr s = .ok t ∧ topicToStr t = s)
    ∧ (validTopicStr s = false → ∃ e, topicFromStr s = .error e) := by
  intro s
  have hjoin := joinSlash_splitSlash s
  rcases hs : splitSlash s with _ | ⟨p, _ | ⟨g, _ | ⟨k, _ | ⟨n, _ | ⟨d, _ | ⟨x, rest⟩⟩⟩⟩⟩⟩
  · refine ⟨fun hv => ?_, fun _ => ⟨⟨"Incorrect topic length".toList⟩, by simp [topicFromStr, hs]⟩⟩
    simp [validTopicStr, hs] at hv
  · refine ⟨fun hv => ?_, fun _ => ⟨⟨"Incorrect topic length".toList⟩, by simp [topicFromStr, hs]⟩⟩
    simp [validTopicStr, hs] at hv
  · refine ⟨fun hv => ?_, fun _ => ⟨⟨"Incorrect topic length".toList⟩, by simp [topicFromStr, hs]⟩⟩
    simp [validTopicStr, hs] at hv
  · refine ⟨fun hv => ?_, fun _ => ⟨⟨"Incorrect topic length".toList⟩, by simp [topicFromStr, hs]⟩⟩
    simp [validTopicStr, hs] at hv
  · -- four segments
    rw [hs] at hjoin
    refine ⟨fun hv => ?_, fun hv => ?_⟩
    · simp only [validTopicStr, hs, Bool.and_eq_true, decide_eq_true_eq] at hv
      obtain ⟨hp, hk'⟩ := hv
      cases hk : topicTypeFromStr k with
      | error e => rw [hk] at hk'; simp at hk'
      | ok tt =>
        refine ⟨⟨SP_NAMESPACE, ⟨g, n, AddressType.node⟩, tt⟩, ?_, ?_⟩
        · simp [topicFromStr, hs, hp, hk]
        · rw [← hjoin]
          simp [topicToStr, joinSlash, topicTypeToStr_fromStr k tt hk, hp]
    · by_cases hp : p = SP_NAMESPACE
      · cases hk : topicTypeFromStr k with
        | ok tt => simp [validTopicStr, hs, hp, hk] at hv
        | error e => exact ⟨e, by simp [topicFromStr, hs, hp, hk]⟩
      · exact ⟨⟨"Incorrect Sparkplug prefix".toList⟩, by simp [topicFromStr, hs, hp]⟩
  · -- five segments
    rw [hs] at hjoin
    refine ⟨fun hv => ?_, fun hv => ?_⟩
    · simp only [validTopicStr, hs, Bool.and_eq_true, decide_eq_true_eq] at hv
      obtain ⟨hp, hk'⟩ := hv
      cases hk : topicTypeFromStr k with
      | error e => rw [hk] at hk'; simp at hk'
      | ok tt =>
        refine ⟨⟨SP_NAMESPACE, ⟨g, n, AddressType.device d⟩, tt⟩, ?_, ?_⟩
        · simp [topicFromStr, hs, hp, hk]
        · rw [← hjoin]
          simp [topicToStr, joinSlash, topicTypeToStr_fromStr k tt hk, hp]
    · by_cases hp : p = SP_NAMESPACE
      · cases hk : topicTypeFromStr k with
        | ok tt => simp [validTopicStr, hs, hp, hk] at hv
        | error e => exact ⟨e, by simp [topicFromStr, hs, hp, hk]⟩
      · exact ⟨⟨"Incorrect Sparkplug prefix".toList⟩, by simp [topicFromStr, hs, hp]⟩
  · refine ⟨fun hv => ?_, fun _ => ⟨⟨"Incorrect topic length".toList⟩, by simp [topicFromStr, hs]⟩⟩
    simp [validTopicStr, hs] at hv

/-- Witness for `c7_topic_roundtrip`: a concrete valid 4-segment topic
string round-trips, and a concrete invalid string parses to an error. -/
theorem c7_witness :
    (∃ t, topicFromStr ("spBv1.0/Grp/NBIRTH/Node1".toList) = .ok t
       ∧ topicToStr t = "spBv1.0/Grp/NBIRTH/Node1".toList)
    ∧ (∃ e, topicFromStr ("bad".toList) = .error e) :=
  ⟨(c7_topic_roundtrip ("spBv1.0/Grp/NBIRTH/Node1".toList)).1 (by decide),
   (c7_topic_roundtrip ("bad".toList)).2 (by decide)⟩

/- ===== Association-list lemmas ===== -/

theorem lookupBy_insertBy_self {κ β : Type} [DecidableEq κ]
    (m : List (κ × β)) (k : κ) (v : β) :
    lookupBy (insertBy m k v) k = some v := by
  induction m with
  | nil => simp [insertBy, lookupBy]
  | cons p rest ih =>
    obtain ⟨k', v'⟩ := p
    by_cases h : k' = k
    · subst h
      simp [insertBy, lookupBy]
    · simp [insertBy, lookupBy, h, ih]

theorem lookupBy_insertBy_other {κ β : Type} [DecidableEq κ]
    (m : List (κ × β)) (k k' : κ) (v : β) (h : k' ≠ k) :
    lookupBy (insertBy m k v) k' = lookupBy m k' := by
  induction m with
  | nil => simp [insertBy, lookupBy, Ne.symm h]
  | cons p rest ih =>
    obtain ⟨k2, v2⟩ := p
    by_cases h2 : k2 = k
    · subst h2
      simp [insertBy, lookupBy, Ne.symm h]
    · simp [insertBy, lookupBy, h2, ih]

/- ===== C10: empty acquired token synthesizes a local 401 ===== -/

theorem service_token_httpCount (env : Env) (badToken : Option TokenStruct)
    (serviceUrl : Str) (st : PState) :
    (service_token env badToken serviceUrl st).2.httpCount = st.httpCount := by
  unfold service_token
  split
  · split
    · rfl
    · split <;> rfl
  · split
    · rfl
    · split <;> rfl

/-- Claim C10: when `service_token` succeeds but the credential string is
empty, `try_fetch` returns `Ok(FetchResponse{status:401, content:""})`
without executing the underlying HTTP call (the request-execution counter
is untouched). -/
theorem c10_empty_token_401 :
    ∀ (env : Env) (opts : ServiceOpts) (st : PState) (t : TokenStruct) (st1 : PState),
      service_token env (some ⟨[], []⟩) opts.url st = (Outcome.ok t, st1) →
      t.token = [] →
      try_fetch env opts st = (Outcome.ok ⟨401, []⟩, st1)
      ∧ st1.httpCount = st.httpCount := by
  intro env opts st t st1 h ht
  constructor
  · unfold try_fetch
    rw [h]
    simp [ht]
  · have hc := service_token_httpCount env (some ⟨[], []⟩) opts.url st
    rw [h] at hc
    exact hc

/-- Witness for `c10_empty_token_401`: with an acquisition oracle that
returns the empty token, the pipeline synthesizes a 401 locally. -/
theorem c10_witness :
    try_fetch envC10 optsU st0 = (Outcome.ok ⟨401, []⟩, stC10)
    ∧ stC10.httpCount = st0.httpCount :=
  c10_empty_token_401 envC10 optsU st0 ⟨[], "E".toList⟩ stC10 (by decide) rfl

/- ===== C1: 401 retry without invalidation ===== -/

/-- Claim C1 evaluation at the failing input: with a working token
acquisition (token `"T"`) and a server that answers 401 to every request,
`do_fetch` performs exactly ONE upstream token acquisition (not two),
leaves the token cached for key `"u"` (no invalidation), executes the
request twice, and hands the second 401 back to the caller.  The claim's
invalidate-and-reacquire behaviour does not happen: `do_fetch` never
removes the cache entry, and the retry's `service_token` call compares
the cached token against a hard-coded empty `bad_token`, so the same
token `"T"` is reused. -/
theorem c1_retry_without_invalidation :
    do_fetch envC1 optsU st0
      = (Outcome.ok ⟨401, []⟩,
         ⟨[("u".toList, ⟨"T".toList, "E".toList⟩)], ["u".toList], 1, 2⟩) := by
  rfl

/- ===== C2: second caller on a spent in-flight future ===== -/

/-- Claim C2 evaluation at the failing input: for key `"u"` (previously
absent) with a failing acquisition, the first `service_token` caller
performs one acquisition and gets an error, but the in-flight entry is
never removed; the second caller for the same key finds the completed
future in `in_flight_tokens` and awaits it again, which panics (an
`async fn` future resumed after completion) instead of delivering the
same error to all callers. -/
theorem c2_waiter_panics_on_spent_future :
    (service_token envC2 (some ⟨[], []⟩) "u".toList st0).1
        = Outcome.err ⟨"Error fetching new token.".toList, "u".toList⟩
    ∧ (service_token envC2 (some ⟨[], []⟩) "u".toList st0).2.acquireCount = 1
    ∧ (service_token envC2 (some ⟨[], []⟩) "u".toList
        (service_token envC2 (some ⟨[], []⟩) "u".toList st0).2).1
        = Outcome.panicked :=
  ⟨rfl, rfl, rfl⟩

/- ===== C5: service-client token lookup ===== -/

/-- Claim C5: `get_service_token` returns a cached token immediately
without invoking acquisition; on a miss it invokes acquisition exactly
once, stores and returns the new token on success, and returns the error
with the cache untouched on failure. -/
theorem c5_get_service_token :
    ∀ (tokens : List (ClientServiceType × ClientToken))
      (acquire : Except FetchError ClientToken) (service : ClientServiceType),
      (∀ tok, lookupBy tokens service = some tok →
        get_service_token tokens acquire service = (.ok tok, tokens, 0))
      ∧ (lookupBy tokens service = none →
          (∀ newTok, acquire = .ok newTok →
            (get_service_token tokens acquire service).1 = .ok newTok
            ∧ (get_service_token tokens acquire service).2.2 = 1
            ∧ lookupBy (get_service_token tokens acquire service).2.1 service
                = some newTok
            ∧ (∀ k, k ≠ service →
                lookupBy (get_service_token tokens acquire service).2.1 k
                  = lookupBy tokens k))
          ∧ (∀ e, acquire = .error e →
              get_service_token tokens acquire service = (.error e, tokens, 1))) := by
  intro tokens acquire service
  constructor
  · intro tok h
    simp [get_service_token, h]
  · intro h
    constructor
    · intro newTok ha
      subst ha
      refine ⟨?_, ?_, ?_, ?_⟩
      · simp [get_service_token, h]
      · simp [get_service_token, h]
      · simp [get_service_token, h, lookupBy_insertBy_self]
      · intro k hk
        simp [get_service_token, h, lookupBy_insertBy_other _ _ _ _ hk]
    · intro e ha
      subst ha
      simp [get_service_token, h]

/-- Witness for `c5_get_service_token`: the cache-hit case, the
miss-and-succeed case and the miss-and-fail case at concrete inputs. -/
theorem c5_witness :
    (get_service_token [(ClientServiceType.ConfigDb, ⟨"T".toList, 5⟩)]
        (.error ⟨"boom".toList, "u".toList⟩) ClientServiceType.ConfigDb
      = (.ok ⟨"T".toList, 5⟩, [(ClientServiceType.ConfigDb, ⟨"T".toList, 5⟩)], 0))
    ∧ ((get_service_token [] (.ok ⟨"T".toList, 5⟩) ClientServiceType.ConfigDb).1
        = .ok ⟨"T".toList, 5⟩
       ∧ (get_service_token [] (.ok ⟨"T".toList, 5⟩) ClientServiceType.ConfigDb).2.2 = 1
       ∧ lookupBy (get_service_token [] (.ok ⟨"T".toList, 5⟩)
            ClientServiceType.ConfigDb).2.1 ClientServiceType.ConfigDb
          = some ⟨"T".toList, 5⟩
       ∧ (∀ k, k ≠ ClientServiceType.ConfigDb →
           lookupBy (get_service_token [] (.ok ⟨"T".toList, 5⟩)
              ClientServiceType.ConfigDb).2.1 k
            = lookupBy ([] : List (ClientServiceType × ClientToken)) k))
    ∧ (get_service_token [] (.error ⟨"boom".toList, "u".toList⟩)
        ClientServiceType.ConfigDb
      = (.error ⟨"boom".toList, "u".toList⟩, [], 1)) :=
  ⟨(c5_get_service_token [(ClientServiceType.ConfigDb, ⟨"T".toList, 5⟩)]
      (.error ⟨"boom".toList, "u".toList⟩) ClientServiceType.ConfigDb).1 _ rfl,
   ((c5_get_service_token [] (.ok ⟨"T".toList, 5⟩) ClientServiceType.ConfigDb).2
      rfl).1 _ rfl,
   ((c5_get_service_token [] (.error ⟨"boom".toList, "u".toList⟩)
      ClientServiceType.ConfigDb).2 rfl).2 _ rfl⟩

/- ===== C3: discovery does not cache Directory results ===== -/

/-- Claim C3 counterexample: with no static entry for the service, a
first resolve succeeds through the Directory oracle (query counter 0→1);
because `get_service_urls` takes `&self` and stores nothing, a second
resolve of the same service issues a second Directory query (counter
1→2), contradicting the claim that a successful resolve prevents further
Directory queries. -/
theorem c3_counterexample :
    (get_service_urls [] dirOracleC3 0 ClientServiceType.ConfigDb).1
        = .ok (some ["u".toList])
    ∧ (get_service_urls [] dirOracleC3 0 ClientServiceType.ConfigDb).2 = 1
    ∧ (get_service_urls [] dirOracleC3
        (get_service_urls [] dirOracleC3 0 ClientServiceType.ConfigDb).2
        ClientServiceType.ConfigDb).2 = 2 :=
  ⟨rfl, rfl, rfl⟩

/-- Claim C3 (amended): a resolve returns a statically configured (or
explicitly set) list without querying Directory; for a service with no
configured entry, every resolve queries Directory — the fetched list is
never stored, so two successive resolves issue two queries. -/
theorem c3_amended :
    ∀ (urls : List (ClientServiceType × List Str))
      (dirOracle : Nat → Except FetchError (Option (List Str)))
      (dirCount : Nat) (service : ClientServiceType),
      (∀ u, lookupBy urls service = some u →
        get_service_urls urls dirOracle dirCount service = (.ok (some u), dirCount))
      ∧ (lookupBy urls service = none →
          get_service_urls urls dirOracle dirCount service
            = (dirOracle dirCount, dirCount + 1)
          ∧ (get_service_urls urls dirOracle
              (get_service_urls urls dirOracle dirCount service).2 service).2
            = dirCount + 2) := by
  intro urls dirOracle dirCount service
  constructor
  · intro u h
    simp [get_service_urls, h]
  · intro h
    constructor
    · simp [get_service_urls, find_service_urls, h]
    · simp [get_service_urls, find_service_urls, h]

/-- Witness for `c3_amended`: a static entry is returned with no query;
an absent entry is fetched from Directory on each of two resolves. -/
theorem c3_witness :
    (get_service_urls [(ClientServiceType.MQTT, ["m".toList])] dirOracleC3 0
        ClientServiceType.MQTT
      = (.ok (some ["m".toList]), 0))
    ∧ (get_service_urls [] dirOracleC3 0 ClientServiceType.MQTT
        = (dirOracleC3 0, 1)
       ∧ (get_service_urls [] dirOracleC3
           (get_service_urls [] dirOracleC3 0 ClientServiceType.MQTT).2
           ClientServiceType.MQTT).2 = 2) :=
  ⟨(c3_amended _ _ _ _).1 _ rfl, (c3_amended _ _ _ _).2 rfl⟩

/- ===== C9: header normalization ===== -/

theorem mem_entryOrInsert (m : List (Str × Str)) (name val : Str)
    (p : Str × Str) (h : p ∈ m) : p ∈ entryOrInsert m name val := by
  unfold entryOrInsert
  split
  · exact h
  · exact List.mem_append_left _ h

theorem any_entryOrInsert_self (m : List (Str × Str)) (name val : Str) :
    (entryOrInsert m name val).any (fun p => decide (p.1 = name)) = true := by
  unfold entryOrInsert
  split
  · assumption
  · simp [List.any_append]

theorem any_entryOrInsert_mono (m : List (Str × Str)) (name val n2 : Str)
    (h : m.any (fun p => decide (p.1 = n2)) = true) :
    (entryOrInsert m name val).any (fun p => decide (p.1 = n2)) = true := by
  unfold entryOrInsert
  split
  · exact h
  · simp [List.any_append, h]

theorem entryOrInsert_of_any (m : List (Str × Str)) (name val : Str)
    (h : m.any (fun p => decide (p.1 = name)) = true) :
    entryOrInsert m name val = m := by
  unfold entryOrInsert
  simp [h]

theorem filter_entryOrInsert_ne (m : List (Str × Str)) (name val n2 : Str)
    (h : n2 ≠ name) :
    (entryOrInsert m name val).filter (fun p => decide (p.1 = n2))
      = m.filter (fun p => decide (p.1 = n2)) := by
  unfold entryOrInsert
  split
  · rfl
  · simp [List.filter_append, Ne.symm h]

theorem any_entryOrInsert_ne_false (m : List (Str × Str)) (name val n2 : Str)
    (hne : n2 ≠ name) (h : m.any (fun p => decide (p.1 = n2)) = false) :
    (entryOrInsert m name val).any (fun p => decide (p.1 = n2)) = false := by
  unfold entryOrInsert
  split
  · exact h
  · simp [List.any_append, h, Ne.symm hne]

theorem filter_entryOrInsert_of_not_any (m : List (Str × Str)) (name val : Str)
    (h : m.any (fun p => decide (p.1 = name)) = false) :
    (entryOrInsert m name val).filter (fun p => decide (p.1 = name))
      = [(name, val)] := by
  have h2 : m.filter (fun p => decide (p.1 = name)) = [] := by
    rw [List.filter_eq_nil_iff]
    intro a ha
    simp only [decide_eq_true_eq]
    intro hc
    have hany : m.any (fun p => decide (p.1 = name)) = true :=
      List.any_eq_true.mpr ⟨a, ha, by simp [hc]⟩
    rw [h] at hany
    cases hany
  unfold entryOrInsert
  simp [h, List.filter_append, h2]

/-- Claim C9: `check_correct_headers` succeeds and returns a header map
that contains an Accept entry, contains a Content-Type entry whenever a
body is present, keeps every caller-supplied pair, never overwrites
caller-supplied Accept or Content-Type values (their entries are exactly
the caller's), and when the caller supplied no Accept (resp. no
Content-Type with a body present) the entry inserted is exactly
`application/json`. -/
theorem c9_check_correct_headers :
    ∀ (headers : List (Str × Str)) (body : Option Str) (url : Str),
      ∃ m, check_correct_headers headers body url = .ok m
        ∧ m.any (fun p => decide (p.1 = acceptName)) = true
        ∧ (body.isSome = true → m.any (fun p => decide (p.1 = contentTypeName)) = true)
        ∧ (∀ p, p ∈ headers → p ∈ m)
        ∧ (headers.any (fun p => decide (p.1 = acceptName)) = true →
            m.filter (fun p => decide (p.1 = acceptName))
              = headers.filter (fun p => decide (p.1 = acceptName)))
        ∧ (headers.any (fun p => decide (p.1 = contentTypeName)) = true →
            m.filter (fun p => decide (p.1 = contentTypeName))
              = headers.filter (fun p => decide (p.1 = contentTypeName)))
        ∧ (headers.any (fun p => decide (p.1 = acceptName)) = false →
            m.filter (fun p => decide (p.1 = acceptName))
              = [(acceptName, jsonStr)])
        ∧ (body.isSome = true →
            headers.any (fun p => decide (p.1 = contentTypeName)) = false →
            m.filter (fun p => decide (p.1 = contentTypeName))
              = [(contentTypeName, jsonStr)]) := by
  intro headers body url
  have hjson : headerValueFromStr jsonStr = some jsonStr := by decide
  cases body with
  | none =>
    refine ⟨entryOrInsert headers acceptName jsonStr, ?_, ?_, ?_, ?_, ?_, ?_, ?_, ?_⟩
    · simp [check_correct_headers, hjson]
    · exact any_entryOrInsert_self _ _ _
    · intro hb
      simp at hb
    · intro p hp
      exact mem_entryOrInsert _ _ _ _ hp
    · intro h
      rw [entryOrInsert_of_any _ _ _ h]
    · intro h
      exact filter_entryOrInsert_ne _ _ _ _ (by decide)
    · intro h
      exact filter_entryOrInsert_of_not_any _ _ _ h
    · intro hb
      simp at hb
  | some b =>
    refine ⟨entryOrInsert (entryOrInsert headers acceptName jsonStr)
        contentTypeName jsonStr, ?_, ?_, ?_, ?_, ?_, ?_, ?_, ?_⟩
    · simp [check_correct_headers, hjson]
    · exact any_entryOrInsert_mono _ _ _ _ (any_entryOrInsert_self _ _ _)
    · intro _
      exact any_entryOrInsert_self _ _ _
    · intro p hp
      exact mem_entryOrInsert _ _ _ _ (mem_entryOrInsert _ _ _ _ hp)
    · intro h
      rw [filter_entryOrInsert_ne _ _ _ _ (by decide), entryOrInsert_of_any _ _ _ h]
    · intro h
      rw [entryOrInsert_of_any _ _ _ (any_entryOrInsert_mono _ _ _ _ h)]
      exact filter_entryOrInsert_ne _ _ _ _ (by decide)
    · intro h
      rw [filter_entryOrInsert_ne _ _ _ _ (by decide)]
      exact filter_entryOrInsert_of_not_any _ _ _ h
    · intro _ h
      exact filter_entryOrInsert_of_not_any _ _ _
        (any_entryOrInsert_ne_false _ _ _ _ (by decide) h)

/-- Witness for `c9_check_correct_headers` at a concrete header map with
a caller-supplied Accept value and a request body. -/
theorem c9_witness :
    ∃ m, check_correct_headers
        [(acceptName, "text/plain".toList), ("x-item".toList, "1".toList)]
        (some ("b".toList)) ("u".toList) = .ok m
      ∧ m.any (fun p => decide (p.1 = acceptName)) = true
      ∧ ((some ("b".toList)).isSome = true →
          m.any (fun p => decide (p.1 = contentTypeName)) = true)
      ∧ (∀ p, p ∈ [(acceptName, "text/plain".toList), ("x-item".toList, "1".toList)] → p ∈ m)
      ∧ ([(acceptName, "text/plain".toList), ("x-item".toList, "1".toList)].any
            (fun p => decide (p.1 = acceptName)) = true →
          m.filter (fun p => decide (p.1 = acceptName))
            = [(acceptName, "text/plain".toList), ("x-item".toList, "1".toList)].filter
                (fun p => decide (p.1 = acceptName)))
      ∧ ([(acceptName, "text/plain".toList), ("x-item".toList, "1".toList)].any
            (fun p => decide (p.1 = contentTypeName)) = true →
          m.filter (fun p => decide (p.1 = contentTypeName))
            = [(acceptName, "text/plain".toList), ("x-item".toList, "1".toList)].filter
                (fun p => decide (p.1 = contentTypeName)))
      ∧ ([(acceptName, "text/plain".toList), ("x-item".toList, "1".toList)].any
            (fun p => decide (p.1 = acceptName)) = false →
          m.filter (fun p => decide (p.1 = acceptName)) = [(acceptName, jsonStr)])
      ∧ ((some ("b".toList)).isSome = true →
          [(acceptName, "text/plain".toList), ("x-item".toList, "1".toList)].any
            (fun p => decide (p.1 = contentTypeName)) = false →
          m.filter (fun p => decide (p.1 = contentTypeName))
            = [(contentTypeName, jsonStr)]) :=
  c9_check_correct_headers
    [(acceptName, "text/plain".toList), ("x-item".toList, "1".toList)]
    (some ("b".toList)) ("u".toList)

end RsClient
